import Mathlib

/-!
Verification of the qualys-iac-scanner pipeline against its design spec.

The Python sources are shallowly embedded:
* `resultParser.py` — JSON payloads become `JValue`; the generator
  `extract_failures` becomes an eager `Except`-valued traversal (the caller
  fully consumes the generator, so eager evaluation is observationally
  equivalent for exit-code purposes); Python exceptions such as
  `AttributeError`/`TypeError` become `PyErr` values.
* `file_utils.py` — the directory subtree becomes a listing of entries;
  `Path.suffix` and the case-insensitive token regex are modelled on
  character lists.
* `qualys_client.py` — `poll_scan_results` becomes a fuel-indexed loop over
  simulated time: each fetch is instantaneous and each sleep advances the
  elapsed clock by `interval`; `(none, k)` means the loop is still running
  after exhausting the fuel, having performed `k` fetches.
* `main.py` — `run_scan_workflow` becomes a function over an environment of
  step outcomes, with the `try`/`except`/`finally` control flow explicit.
-/

/-- Python exceptions that the modelled code can raise. -/
inductive PyErr where
  | attributeError
  | typeError
  | valueError
  | fileNotFoundError
  | sslError
  | requestError
  | ioError
  deriving DecidableEq, Repr

/-- JSON values as produced by `json.loads` (numbers restricted to integers;
no claim depends on float payloads). -/
inductive JValue where
  | null
  | bool (b : Bool)
  | num (n : Int)
  | str (s : String)
  | arr (xs : List JValue)
  | obj (fields : List (String × JValue))

/-- Python truthiness of a JSON-derived value (`bool(x)`). -/
def JValue.truthy : JValue → Bool
  | .null => false
  | .bool b => b
  | .num n => n != 0
  | .str s => !s.isEmpty
  | .arr xs => !xs.isEmpty
  | .obj fs => !fs.isEmpty

/-- Dictionary lookup, last binding wins (as `json.loads` keeps the last
duplicate key when building a Python dict). -/
def jlookup : List (String × JValue) → String → Option JValue
  | [], _ => none
  | (k', v) :: fs, k =>
    match jlookup fs k with
    | some w => some w
    | none => if k' = k then some v else none

/-- Python `d.get(key)`: `AttributeError` when the receiver is not a dict. -/
def pyGet (v : JValue) (k : String) : Except PyErr (Option JValue) :=
  match v with
  | .obj fs => .ok (jlookup fs k)
  | _ => .error PyErr.attributeError

/-- Truthiness of a `d.get` result (`None` is falsy). -/
def optTruthy : Option JValue → Bool
  | none => false
  | some v => v.truthy

/-- Python `for x in v`: lists iterate elements, strings iterate one-char
strings, dicts iterate keys; other values raise `TypeError`. -/
def pyIter : JValue → Except PyErr (List JValue)
  | .arr xs => .ok xs
  | .str s => .ok (s.data.map fun c => JValue.str (String.mk [c]))
  | .obj fs => .ok (fs.map fun p => JValue.str p.1)
  | _ => .error PyErr.typeError

/-- A single-quote character, used by the Python `repr` rendering. -/
def pySquote : String := String.mk [Char.ofNat 39]

mutual

/-- Python `repr` of a JSON-derived value. -/
def pyRepr : JValue → String
  | .null => "None"
  | .bool b => if b then "True" else "False"
  | .num n => toString n
  | .str s => pySquote ++ s ++ pySquote
  | .arr xs => "[" ++ pyReprList xs ++ "]"
  | .obj fs => "\x7b" ++ pyReprFields fs ++ "\x7d"

/-- Comma-separated `repr`s of list elements. -/
def pyReprList : List JValue → String
  | [] => ""
  | [x] => pyRepr x
  | x :: xs => pyRepr x ++ ", " ++ pyReprList xs

/-- Comma-separated `repr`s of dict items. -/
def pyReprFields : List (String × JValue) → String
  | [] => ""
  | [(k, v)] => pySquote ++ k ++ pySquote ++ ": " ++ pyRepr v
  | (k, v) :: fs => pySquote ++ k ++ pySquote ++ ": " ++ pyRepr v ++ ", " ++ pyReprFields fs

end

/-- Python `str` of a JSON-derived value, as an f-string renders it
(differs from `repr` only at a top-level string). -/
def pyStr : JValue → String
  | .str s => s
  | v => pyRepr v

/-- A normalized failure record yielded by `extract_failures`
(`resultParser.py`, the dictionaries tagged `parsing_error` /
`failed_check`). -/
inductive FailureRecord where
  | parsingError (data : JValue)
  | failedCheck (data : JValue)

/-- One iteration of the `extract_failures` loop body
(`resultParser.py` lines 81-90): non-dict entries are skipped; a dict
entry's `results` sub-dict is probed for truthy `parsingErrors` (one record
carrying the whole value) and truthy `failedChecks` (one record per
iterated element).  A non-dict `results` value raises `AttributeError`;
a truthy non-iterable `failedChecks` raises `TypeError`. -/
def processEntry : JValue → Except PyErr (List FailureRecord)
  | .obj fs =>
    match (jlookup fs "results").getD (.obj []) with
    | .obj rs =>
      let pe := jlookup rs "parsingErrors"
      let first :=
        if optTruthy pe then [FailureRecord.parsingError (pe.getD .null)] else []
      let fc := jlookup rs "failedChecks"
      if optTruthy fc then do
        let checks ← pyIter (fc.getD .null)
        pure (first ++ checks.map FailureRecord.failedCheck)
      else pure first
    | _ => .error PyErr.attributeError
  | _ => .ok []

/-- The generator loop of `extract_failures`, fully consumed in order. -/
def extractEntries : List JValue → Except PyErr (List FailureRecord)
  | [] => .ok []
  | e :: rest => do
    let rs ← processEntry e
    let more ← extractEntries rest
    pure (rs ++ more)

/-- `extract_failures` (`resultParser.py` lines 68-90): iterates
`scan_results.get("result", [])` and yields the per-entry records. -/
def extract_failures (scan_results : JValue) : Except PyErr (List FailureRecord) := do
  let r ← pyGet scan_results "result"
  let entries ← pyIter (r.getD (.arr []))
  extractEntries entries

/-- The value rendered for one field of a failed check:
`check_details.get(key) or "None"` passed through `str` (`resultParser.py`
line 114). -/
def fieldValue (fs : List (String × JValue)) (key : String) : String :=
  match jlookup fs key with
  | some v => if v.truthy then pyStr v else "None"
  | none => "None"

/-- Python `", ".join(...)`. -/
def joinComma : List String → String
  | [] => ""
  | [x] => x
  | x :: xs => x ++ ", " ++ joinComma xs

/-- `FIELD_MAPPING` (`resultParser.py` lines 20-26), in insertion order. -/
def FIELD_MAPPING : List (String × String) :=
  [("filePath", "File Name"), ("checkId", "Qualys CID"),
   ("checkName", "Control Name"), ("criticality", "Criticality"),
   ("remediation", "Remediation")]

/-- One iteration of the `report_failures` loop (`resultParser.py` lines
104-117): the stdout line printed for a failure record.  A failed check
whose data is not a dict raises `AttributeError` at `check_details.get`. -/
def renderFailure : FailureRecord → Except PyErr String
  | .parsingError d =>
    .ok ("::error::" ++ "Parsing error file paths=" ++ pyStr d)
  | .failedCheck (.obj fs) =>
    .ok ("::error::" ++
      joinComma (FIELD_MAPPING.map fun kv => kv.2 ++ "=" ++ fieldValue fs kv.1))
  | .failedCheck _ => .error PyErr.attributeError

/-- The lines printed by the `report_failures` loop, in order. -/
def reportLines : List FailureRecord → Except PyErr (List String)
  | [] => .ok []
  | f :: rest => do
    let line ← renderFailure f
    let more ← reportLines rest
    pure (line :: more)

/-- `report_failures` (`resultParser.py` lines 93-119): prints one line per
record and returns whether at least one record was consumed. -/
def report_failures (failures : List FailureRecord) : Except PyErr (List String × Bool) := do
  let lines ← reportLines failures
  pure (lines, !failures.isEmpty)

/-- The `scan_data.get("status") != "FINISHED"` comparison of
`resultParser.py` line 142 (a missing or non-string status never equals the
string). -/
def statusIsFinished : Option JValue → Bool
  | some (.str s) => s == "FINISHED"
  | _ => false

/-- `main` of `resultParser.py` (lines 122-154) after loading: `scan_data`
is `none` when `load_scan_data` returned `None`; falsy data returns 1; a
non-`FINISHED` status returns 1; otherwise the reporter's boolean decides. -/
def resultParserMain (scan_data : Option JValue) : Except PyErr Nat :=
  match scan_data with
  | none => .ok 1
  | some d =>
    if d.truthy = false then .ok 1
    else do
      let st ← pyGet d "status"
      if statusIsFinished st then do
        let fails ← extract_failures d
        let rep ← report_failures fails
        pure (if rep.2 then 1 else 0)
      else .ok 1

/-- The process exit code: `sys.exit(main())`, an unhandled exception also
terminating the process with exit code 1. -/
def processExit (scan_data : Option JValue) : Nat :=
  match resultParserMain scan_data with
  | .ok n => n
  | .error _ => 1

/-- A filesystem object reached by `root_dir.rglob("*")` in `file_utils.py`:
its filename (final path component) and whether it is a regular file. -/
structure FsEntry where
  name : String
  isFile : Bool
  deriving DecidableEq

/-- The scanned directory: whether the root exists as a directory, and the
recursive listing of the subtree. -/
structure DirTree where
  isDir : Bool
  entries : List FsEntry

/-- `SUPPORTED_EXTENSIONS` (`file_utils.py` line 9), as character lists. -/
def SUPPORTED_EXTENSIONS : List (List Char) :=
  [".tf".data, ".json".data, ".yaml".data, ".yml".data, ".template".data]

/-- The alternatives of `IAC_REGEX` (`file_utils.py` line 11): the regex is
an alternation of these literal tokens, compiled with `re.IGNORECASE`. -/
def IAC_TOKENS : List (List Char) :=
  ["main".data, "infra".data, "template".data, "cloudformation".data,
   "terraform".data, "cdk".data, "stack".data]

/-- A filename lowered character by character (ASCII case folding, which is
what `re.IGNORECASE` amounts to on these ASCII-only tokens). -/
def lowerStr (s : String) : List Char := s.data.map Char.toLower

/-- The index of the last `.` in a filename, Python `str.rfind(".")`. -/
def lastDotIdx (l : List Char) : Option Nat :=
  ((List.range l.length).filter fun i => l.getD i ' ' == '.').getLast?

/-- `pathlib.Path.suffix` on a filename: the part from the last dot on,
empty when there is no dot, the dot is leading, or the dot is final. -/
def suffixOf (name : String) : List Char :=
  match lastDotIdx name.data with
  | some i =>
    if 0 < i ∧ i < name.data.length - 1 then name.data.drop i else []
  | none => []

/-- `is_likely_iac_file` (`file_utils.py` lines 13-14): `IAC_REGEX` finds a
match in `file.name` iff some token occurs case-insensitively in the
filename. -/
def is_likely_iac_file (name : String) : Bool :=
  IAC_TOKENS.any fun t => decide (t <:+: lowerStr name)

/-- `file.suffix.lower() in SUPPORTED_EXTENSIONS` (`file_utils.py` line 30). -/
def suffixSupported (name : String) : Bool :=
  decide ((suffixOf name).map Char.toLower ∈ SUPPORTED_EXTENSIONS)

/-- The selection predicate of the `find_iac_templates` comprehension
(`file_utils.py` lines 26-32). -/
def iacFilter (f : FsEntry) : Bool :=
  f.isFile && suffixSupported f.name && is_likely_iac_file f.name

/-- `find_iac_templates` (`file_utils.py` lines 16-38): raises
`FileNotFoundError` when the root is not an existing directory, otherwise
filters the recursive listing. -/
def find_iac_templates (root : DirTree) : Except PyErr (List FsEntry) :=
  if root.isDir then .ok (root.entries.filter iacFilter)
  else .error PyErr.fileNotFoundError

/-- `Path.relative_to` on component lists (`file_utils.py` line 57): the
path relative to `base`, or `ValueError` when the file is not under it. -/
def relative_to (p base : List String) : Except PyErr (List String) :=
  if base <+: p then .ok (p.drop base.length) else .error PyErr.valueError

/-- The `zf.write` loop of `create_zip_archive` (`file_utils.py` lines
54-58): each produced archive entry pairs the source path with its
`arcname`; the first `relative_to` failure aborts the loop and propagates. -/
def create_zip_archive (files : List (List String)) (base : List String) :
    Except PyErr (List (List String × List String)) :=
  match files with
  | [] => .ok []
  | f :: rest => do
    let a ← relative_to f base
    let tail ← create_zip_archive rest base
    pure ((f, a) :: tail)

/-- Outcome of `poll_scan_results`: the terminal payload, or the
`TimeoutError` naming the configured budget (`qualys_client.py` line 174). -/
inductive PollResult where
  | finished (payload : List (String × JValue))
  | timedOut (budget : Nat)

/-- `data.get("status", "UNKNOWN") == "FINISHED"` (`qualys_client.py` lines
161-163); the fetched response is a JSON object. -/
def isFinished (data : List (String × JValue)) : Bool :=
  match (jlookup data "status").getD (JValue.str "UNKNOWN") with
  | .str s => s == "FINISHED"
  | _ => false

/-- The `while` loop of `poll_scan_results` (`qualys_client.py` lines
154-174) over simulated time: at iteration `k` the elapsed clock reads
`k * interval` (each fetch is instantaneous, each `time.sleep(interval)`
advances the clock); the loop condition is checked before every fetch.
The second component counts fetches performed; result `none` means the
fuel ran out with the loop still going. -/
def pollFrom (fetch : Nat → List (String × JValue)) (interval timeout : Nat) :
    Nat → Nat → Option PollResult × Nat
  | 0, k => (none, k)
  | fuel + 1, k =>
    if k * interval < timeout then
      if isFinished (fetch k) then (some (.finished (fetch k)), k + 1)
      else pollFrom fetch interval timeout fuel (k + 1)
    else (some (.timedOut timeout), k)

/-- `poll_scan_results` (`qualys_client.py` lines 133-174): the loop run
from a zero clock; with a positive interval, `timeout + 2` iterations are
always enough for the loop to exit on its own, so no `none` escapes. -/
def poll_scan_results (fetch : Nat → List (String × JValue))
    (interval timeout : Nat) : Option PollResult × Nat :=
  pollFrom fetch interval timeout (timeout + 2) 0

/-- Branch outcome of one orchestrated run (`main.py`): normal return, or
`sys.exit(1)` from either `except` handler. -/
inductive RunOutcome where
  | completed
  | exitedOne
  deriving DecidableEq

/-- Outcomes of the remote / filesystem steps of `run_scan_workflow`, the
collaborators the orchestrator sequences (`main.py` lines 30-70). -/
structure WorkflowEnv where
  root : DirTree
  zipPartialOnDisk : Bool
  zipWrite : Except PyErr Unit
  clientInit : Except PyErr Unit
  initiate : Except PyErr Unit
  poll : Except PyErr Unit
  sarif : Except PyErr Unit
  writeResults : Except PyErr Unit

/-- The `try` body of `run_scan_workflow` (`main.py` lines 30-71).  Returns
the body's outcome, whether `zip_file_path` was assigned (line 40), and
whether the archive file is on disk when the body is left: after a
successful `create_zip_archive` the file exists; after a failing one a
partial file may or may not exist (`env.zipPartialOnDisk`). -/
def runBody (env : WorkflowEnv) : Except PyErr Unit × Bool × Bool :=
  match find_iac_templates env.root with
  | .error e => (.error e, false, false)
  | .ok files =>
    if files.isEmpty then (.ok (), false, false)
    else
      match env.zipWrite with
      | .error e => (.error e, true, env.zipPartialOnDisk)
      | .ok () =>
        match env.clientInit with
        | .error e => (.error e, true, true)
        | .ok () =>
          match env.initiate with
          | .error e => (.error e, true, true)
          | .ok () =>
            match env.poll with
            | .error e => (.error e, true, true)
            | .ok () =>
              match env.sarif with
              | .error e => (.error e, true, true)
              | .ok () =>
                match env.writeResults with
                | .error e => (.error e, true, true)
                | .ok () => (.ok (), true, true)

/-- `run_scan_workflow` (`main.py` lines 20-82): both `except` handlers map
any body error to `sys.exit(1)`, and the `finally` block removes the
archive whenever `zip_file_path` is assigned and the file exists — it runs
on every path, including the `SystemExit` raised by the handlers.  The
second component is whether the temporary archive is still on disk after
the run. -/
def run_scan_workflow (env : WorkflowEnv) : RunOutcome × Bool :=
  match runBody env with
  | (res, assigned, onDisk) =>
    let onDiskAfter := if assigned && onDisk then false else onDisk
    (match res with
     | .ok _ => RunOutcome.completed
     | .error _ => RunOutcome.exitedOne,
     onDiskAfter)

/-- Shape constraint under which the claims describe `parsingErrors`: absent
or a JSON array (the spec calls it a list of opaque path-like values). -/
def peOk (rs : List (String × JValue)) : Bool :=
  match jlookup rs "parsingErrors" with
  | none => true
  | some (.arr _) => true
  | some _ => false

/-- Shape constraint under which the claims describe `failedChecks`: absent
or a JSON array (the spec calls it a list of `CheckFailure`). -/
def fcOk (rs : List (String × JValue)) : Bool :=
  match jlookup rs "failedChecks" with
  | none => true
  | some (.arr _) => true
  | some _ => false

/-- A result entry is well formed when it is either not a dict (the spec:
skipped, not fatal) or a dict whose `results` value is a dict with
list-shaped `parsingErrors` / `failedChecks`. -/
def wellFormedEntry : JValue → Bool
  | .obj fs =>
    match (jlookup fs "results").getD (.obj []) with
    | .obj rs => peOk rs && fcOk rs
    | _ => false
  | _ => true

/-- Modelled from the spec wording for one entry, parsing-error part:
exactly one record carrying the full list when that list is non-empty. -/
def specPeRecords (rs : List (String × JValue)) : List FailureRecord :=
  match jlookup rs "parsingErrors" with
  | some (.arr (p :: ps)) => [FailureRecord.parsingError (.arr (p :: ps))]
  | _ => []

/-- Modelled from the spec wording for one entry, failed-check part: one
record per element of `failedChecks` in their original relative order. -/
def specFcRecords (rs : List (String × JValue)) : List FailureRecord :=
  match jlookup rs "failedChecks" with
  | some (.arr cs) => cs.map FailureRecord.failedCheck
  | _ => []

/-- The records the spec prescribes for one result entry: nothing for a
non-dict entry, otherwise the parsing-error record (if any) followed by the
failed-check records. -/
def specEntryRecords : JValue → List FailureRecord
  | .obj fs =>
    match (jlookup fs "results").getD (.obj []) with
    | .obj rs => specPeRecords rs ++ specFcRecords rs
    | _ => []
  | _ => []

/-- The records the spec prescribes for a sequence of entries, in entry
order. -/
def specRecords : List JValue → List FailureRecord
  | [] => []
  | e :: rest => specEntryRecords e ++ specRecords rest

/-! Helper lemmas shared across the claim proofs. -/

/-- Binding a successful `Except` computation applies the continuation. -/
theorem ebind_ok {α β : Type} (a : α) (f : α → Except PyErr β) :
    (Except.ok a >>= f) = f a := rfl

/-- Binding a failed `Except` computation propagates the error. -/
theorem ebind_err {α β : Type} (e : PyErr) (f : α → Except PyErr β) :
    ((Except.error e : Except PyErr α) >>= f) = Except.error e := rfl

/-- `pure` in the `Except` monad is `ok`. -/
theorem epure {α : Type} (a : α) : (pure a : Except PyErr α) = Except.ok a := rfl

/-- A suffix of a list occurs in it as a contiguous substring. -/
theorem substring_of_suffix {a b : List Char} (h : a <:+ b) : a <:+: b := by
  obtain ⟨s, rfl⟩ := h
  exact ⟨s, [], by simp⟩

/-- The `pathlib` suffix of a filename is a suffix of its characters. -/
theorem suffixOf_suffix (name : String) : suffixOf name <:+ name.data := by
  unfold suffixOf
  cases lastDotIdx name.data with
  | none => exact List.nil_suffix
  | some i =>
    dsimp only
    split
    · exact List.drop_suffix i name.data
    · exact List.nil_suffix

/-- C4: `find_iac_templates`, applied to an existing directory, returns
exactly the regular files in the subtree whose extension (lower-cased) is
one of `.tf`, `.json`, `.yaml`, `.yml`, `.template` and whose filename
contains one of the heuristic tokens case-insensitively; it fails with a
not-found error when the root is not an existing directory, and returns an
empty collection (not an error) when nothing matches. -/
theorem find_iac_templates_spec (root : DirTree) :
    (root.isDir = false →
      find_iac_templates root = .error PyErr.fileNotFoundError) ∧
    (root.isDir = true →
      ∃ l, find_iac_templates root = .ok l ∧
        ∀ f, f ∈ l ↔
          f ∈ root.entries ∧ f.isFile = true ∧
          (suffixOf f.name).map Char.toLower ∈ SUPPORTED_EXTENSIONS ∧
          ∃ t ∈ IAC_TOKENS, t <:+: lowerStr f.name) ∧
    (root.isDir = true → (∀ f ∈ root.entries, iacFilter f = false) →
      find_iac_templates root = .ok []) := by
  refine ⟨?_, ?_, ?_⟩
  · intro h
    simp [find_iac_templates, h]
  · intro h
    refine ⟨root.entries.filter iacFilter, by simp [find_iac_templates, h], ?_⟩
    intro f
    simp [List.mem_filter, iacFilter, suffixSupported, is_likely_iac_file,
      Bool.and_eq_true, decide_eq_true_eq, List.any_eq_true, and_assoc]
  · intro h hnone
    have hnil : root.entries.filter iacFilter = [] := by
      rw [List.filter_eq_nil_iff]
      intro f hf
      simp [hnone f hf]
    simp [find_iac_templates, h, hnil]

/-- C4 witness: the spec's end-to-end discovery scenario — `main.tf`
matches, `readme.md` has an excluded extension, `output.json` has a
supported extension but no heuristic token. -/
theorem find_iac_templates_spec_witness :
    ∃ l, find_iac_templates
        ⟨true, [⟨"main.tf", true⟩, ⟨"readme.md", true⟩, ⟨"output.json", true⟩]⟩ =
          .ok l ∧
      ∀ f, f ∈ l ↔
        f ∈ [(⟨"main.tf", true⟩ : FsEntry), ⟨"readme.md", true⟩,
             ⟨"output.json", true⟩] ∧ f.isFile = true ∧
        (suffixOf f.name).map Char.toLower ∈ SUPPORTED_EXTENSIONS ∧
        ∃ t ∈ IAC_TOKENS, t <:+: lowerStr f.name :=
  (find_iac_templates_spec
    ⟨true, [⟨"main.tf", true⟩, ⟨"readme.md", true⟩, ⟨"output.json", true⟩]⟩).2.1 rfl

/-- C10: a regular file whose `pathlib` suffix lower-cases to `.template`,
lying under an existing root directory, is always selected by
`find_iac_templates` — the extension itself contains the token `template`,
and the heuristic regex is matched against the full filename. -/
theorem template_extension_always_selected (root : DirTree) (f : FsEntry)
    (hdir : root.isDir = true) (hmem : f ∈ root.entries)
    (hfile : f.isFile = true)
    (hext : (suffixOf f.name).map Char.toLower = ".template".data) :
    ∃ l, find_iac_templates root = .ok l ∧ f ∈ l := by
  refine ⟨root.entries.filter iacFilter, by simp [find_iac_templates, hdir], ?_⟩
  rw [List.mem_filter]
  refine ⟨hmem, ?_⟩
  have hsup : suffixSupported f.name = true := by
    rw [suffixSupported, decide_eq_true_eq, hext]
    decide
  have hsfx : suffixOf f.name <:+ f.name.data := suffixOf_suffix f.name
  obtain ⟨pre, hpre⟩ := hsfx
  have hts : ".template".data <:+ lowerStr f.name := by
    refine ⟨pre.map Char.toLower, ?_⟩
    rw [lowerStr, ← hpre, List.map_append, hext]
  have htt : "template".data <:+ ".template".data := ⟨['.'], by decide⟩
  have hinf : "template".data <:+: lowerStr f.name :=
    substring_of_suffix (htt.trans hts)
  have hlik : is_likely_iac_file f.name = true := by
    rw [is_likely_iac_file, List.any_eq_true]
    exact ⟨"template".data, by decide, by rw [decide_eq_true_eq]; exact hinf⟩
  simp [iacFilter, hfile, hsup, hlik]

/-- C10 witness: `notes.TEMPLATE` carries no heuristic token outside its
extension, yet is selected. -/
theorem template_extension_always_selected_witness :
    ∃ l, find_iac_templates ⟨true, [⟨"notes.TEMPLATE", true⟩]⟩ = .ok l ∧
      (⟨"notes.TEMPLATE", true⟩ : FsEntry) ∈ l :=
  template_extension_always_selected _ _ rfl (by decide) rfl (by decide)

/-- If some input file does not lie under the base directory, the archive
loop aborts with `ValueError` (possibly after writing correctly named
earlier entries). -/
theorem create_zip_archive_err (files : List (List String)) (base : List String) :
    ∀ f ∈ files, ¬ base <+: f →
      create_zip_archive files base = .error PyErr.valueError := by
  induction files with
  | nil => intro f hf; cases hf
  | cons g rest ih =>
    intro f hf hnp
    by_cases hg : base <+: g
    · rcases List.mem_cons.mp hf with rfl | hfr
      · exact absurd hg hnp
      · have h2 := ih f hfr hnp
        simp [create_zip_archive, relative_to, hg, h2, ebind_ok, ebind_err]
    · simp [create_zip_archive, relative_to, hg, ebind_err]

/-- C7: every archive entry is named with the input file's path relative to
the base directory, and an input file outside the base directory makes the
call fail loudly with `ValueError` instead of writing a misnamed entry. -/
theorem create_zip_archive_spec (files : List (List String)) (base : List String) :
    ((∀ f ∈ files, base <+: f) →
      create_zip_archive files base =
        .ok (files.map fun f => (f, f.drop base.length))) ∧
    ((∃ f ∈ files, ¬ base <+: f) →
      create_zip_archive files base = .error PyErr.valueError) := by
  constructor
  · induction files with
    | nil => intro _; rfl
    | cons f rest ih =>
      intro h
      have hf := h f (List.mem_cons_self f rest)
      have hrest := ih fun g hg => h g (List.mem_cons_of_mem f hg)
      simp [create_zip_archive, relative_to, hf, hrest, ebind_ok, epure]
  · intro h
    obtain ⟨f, hf, hnp⟩ := h
    exact create_zip_archive_err files base f hf hnp

/-- C7 witness: two files under the base are archived under their relative
names. -/
theorem create_zip_archive_spec_witness :
    create_zip_archive [["base", "a", "main.tf"], ["base", "stack.yml"]] ["base"] =
      .ok [(["base", "a", "main.tf"], ["a", "main.tf"]),
           (["base", "stack.yml"], ["stack.yml"])] :=
  (create_zip_archive_spec [["base", "a", "main.tf"], ["base", "stack.yml"]]
    ["base"]).1 (by decide)

/-- When no response is ever terminal, the poll loop with enough fuel exits
through the timeout branch, and every fetch it performed happened strictly
before the timeout boundary. -/
theorem pollFrom_timedOut (fetch : Nat → List (String × JValue))
    (interval timeout : Nat) (hnf : ∀ i, isFinished (fetch i) = false) :
    ∀ fuel k, timeout ≤ k * interval + fuel * interval →
      ∃ n, pollFrom fetch interval timeout (fuel + 1) k =
          (some (.timedOut timeout), n) ∧
        k ≤ n ∧ ∀ i, k ≤ i → i < n → i * interval < timeout := by
  intro fuel
  induction fuel with
  | zero =>
    intro k hk
    rw [Nat.zero_mul, Nat.add_zero] at hk
    have hnl : ¬ k * interval < timeout := Nat.not_lt.mpr hk
    exact ⟨k, by simp [pollFrom, hnl], le_refl k, fun i h1 h2 => absurd h1 (by omega)⟩
  | succ fuel ih =>
    intro k hk
    by_cases hlt : k * interval < timeout
    · have hk' : timeout ≤ (k + 1) * interval + fuel * interval := by
        have heq : (k + 1) * interval + fuel * interval =
            k * interval + (fuel + 1) * interval := by ring
        rw [heq]
        exact hk
      obtain ⟨n, heqn, hkn, hbound⟩ := ih (k + 1) hk'
      refine ⟨n, ?_, by omega, ?_⟩
      · rw [← heqn]
        simp [pollFrom, hlt, hnf k]
      · intro i h1 h2
        rcases eq_or_lt_of_le h1 with rfl | h3
        · exact hlt
        · exact hbound i h3 h2
    · exact ⟨k, by simp [pollFrom, hlt], le_refl k, fun i h1 h2 => absurd h1 (by omega)⟩

/-- C3: for a status source that never returns the terminal status,
`poll_scan_results` fails with the Timeout error naming the configured
budget, and no status fetch happens at or after the timeout boundary
(fetch `i` occurs at simulated elapsed time `i * interval`). -/
theorem poll_scan_results_timeout (fetch : Nat → List (String × JValue))
    (interval timeout : Nat) (hint : 1 ≤ interval)
    (hnf : ∀ i, isFinished (fetch i) = false) :
    ∃ n, poll_scan_results fetch interval timeout =
        (some (PollResult.timedOut timeout), n) ∧
      ∀ i, i < n → i * interval < timeout := by
  have hone : timeout + 1 ≤ (timeout + 1) * interval :=
    Nat.le_mul_of_pos_right (timeout + 1) hint
  have hbudget : timeout ≤ 0 * interval + (timeout + 1) * interval := by
    rw [Nat.zero_mul, Nat.zero_add]
    omega
  obtain ⟨n, heq, _, hbound⟩ :=
    pollFrom_timedOut fetch interval timeout hnf (timeout + 1) 0 hbudget
  exact ⟨n, heq, fun i h2 => hbound i (Nat.zero_le i) h2⟩

/-- C3 witness: a source stuck on RUNNING with interval 1 and timeout 3. -/
theorem poll_scan_results_timeout_witness :
    ∃ n, poll_scan_results (fun _ => [("status", JValue.str "RUNNING")]) 1 3 =
        (some (PollResult.timedOut 3), n) ∧
      ∀ i, i < n → i * 1 < 3 :=
  poll_scan_results_timeout (fun _ => [("status", JValue.str "RUNNING")]) 1 3
    (by decide) (fun i => rfl)

/-- When fetches `k, …, k+m-1` are non-terminal, fetch `k+m` is terminal,
and all of them happen before the timeout boundary, the loop returns the
terminal payload after exactly `m + 1` further fetches. -/
theorem pollFrom_finished (fetch : Nat → List (String × JValue))
    (interval timeout : Nat) :
    ∀ m k fuel, m < fuel →
      (∀ i, k ≤ i → i < k + m → isFinished (fetch i) = false) →
      isFinished (fetch (k + m)) = true →
      (∀ i, k ≤ i → i ≤ k + m → i * interval < timeout) →
      pollFrom fetch interval timeout fuel k =
        (some (.finished (fetch (k + m))), k + m + 1) := by
  intro m
  induction m with
  | zero =>
    intro k fuel hfuel _ hfin hbound
    obtain ⟨fuel', rfl⟩ : ∃ f, fuel = f + 1 := ⟨fuel - 1, by omega⟩
    have h1 : k * interval < timeout := hbound k (le_refl k) (by omega)
    have h2 : isFinished (fetch k) = true := by simpa using hfin
    simp [pollFrom, h1, h2]
  | succ m ih =>
    intro k fuel hfuel hnf hfin hbound
    obtain ⟨fuel', rfl⟩ : ∃ f, fuel = f + 1 := ⟨fuel - 1, by omega⟩
    have h1 : k * interval < timeout := hbound k (le_refl k) (by omega)
    have h2 : isFinished (fetch k) = false := hnf k (le_refl k) (by omega)
    have hshift : (k + 1) + m = k + (m + 1) := by omega
    have hrec := ih (k + 1) fuel' (by omega)
      (fun i ha hb => hnf i (by omega) (by omega))
      (by rw [hshift]; exact hfin)
      (fun i ha hb => hbound i (by omega) (by omega))
    rw [hshift] at hrec
    simp [pollFrom, h1, h2, hrec]

/-- C2: for a status source that is non-terminal for the first `N` fetches
and terminal on fetch `N`, with a budget the ticks do not exhaust,
`poll_scan_results` performs exactly `N + 1` fetches and returns the
payload of the terminal response; any status other than `FINISHED`
(including missing or unrecognized ones, via `isFinished`) keeps it
polling. -/
theorem poll_scan_results_success (fetch : Nat → List (String × JValue))
    (N interval timeout : Nat) (hint : 1 ≤ interval)
    (hpre : ∀ i, i < N → isFinished (fetch i) = false)
    (hfin : isFinished (fetch N) = true)
    (hbud : N * interval < timeout) :
    poll_scan_results fetch interval timeout =
      (some (PollResult.finished (fetch N)), N + 1) := by
  have hle : N ≤ N * interval := Nat.le_mul_of_pos_right N hint
  have hNlt : N < timeout := lt_of_le_of_lt hle hbud
  have hfuel : N < timeout + 2 := lt_of_lt_of_le hNlt (Nat.le_add_right timeout 2)
  have h := pollFrom_finished fetch interval timeout N 0 (timeout + 2) hfuel
    (fun i h1 h2 => hpre i (by omega))
    (by simpa using hfin)
    (fun i h1 h2 =>
      lt_of_le_of_lt (Nat.mul_le_mul_right interval (by omega)) hbud)
  simpa [poll_scan_results] using h

/-- C2 witness: two RUNNING responses then FINISHED, interval 1, timeout 4:
exactly 3 fetches and the terminal payload. -/
theorem poll_scan_results_success_witness :
    poll_scan_results
        (fun i => if i < 2 then [("status", JValue.str "RUNNING")]
          else [("status", JValue.str "FINISHED")]) 1 4 =
      (some (PollResult.finished [("status", JValue.str "FINISHED")]), 3) :=
  poll_scan_results_success
    (fun i => if i < 2 then [("status", JValue.str "RUNNING")]
      else [("status", JValue.str "FINISHED")]) 2 1 4
    (by decide) (by decide) (by decide) (by decide)

/-- C8 counterexample: with the non-positive interval 0 (and a source stuck
on RUNNING) `poll_scan_results` does not fail with a configuration error —
it performs a fetch on every one of its `timeout + 2` iterations and is
still polling when the fuel runs out, because sleeping 0 seconds never
advances the simulated clock toward the 5-second budget. -/
theorem poll_zero_interval_counterexample :
    poll_scan_results (fun _ => [("status", JValue.str "RUNNING")]) 0 5 =
      (none, 7) := rfl

/-- C8 amended: `poll_scan_results` performs no validation of the polling
interval; with interval 0 and a never-terminal status source it busy-loops,
performing one fetch per iteration for any amount of fuel without ever
producing a result or an error. -/
theorem poll_zero_interval_busy_loop (fetch : Nat → List (String × JValue))
    (timeout : Nat) (hto : 0 < timeout)
    (hnf : ∀ i, isFinished (fetch i) = false) :
    ∀ fuel k, pollFrom fetch 0 timeout fuel k = (none, k + fuel) := by
  intro fuel
  induction fuel with
  | zero => intro k; simp [pollFrom]
  | succ fuel ih =>
    intro k
    have h1 : k * 0 < timeout := by simpa using hto
    rw [show k + (fuel + 1) = (k + 1) + fuel by omega, ← ih (k + 1)]
    simp [pollFrom, h1, hnf k, hto.ne']

/-- C8 amended witness: ten iterations at interval 0 are ten fetches with
the loop still going. -/
theorem poll_zero_interval_busy_loop_witness :
    pollFrom (fun _ => [("status", JValue.str "RUNNING")]) 0 5 10 0 =
      (none, 0 + 10) :=
  poll_zero_interval_busy_loop (fun _ => [("status", JValue.str "RUNNING")]) 5
    (by decide) (fun i => rfl) 10 0

/-- C9: on every exit path of the orchestrated run — normal completion,
the early return on an empty template list, and every error branch — the
temporary zip archive is gone when the run ends: the `finally` cleanup
removes it whenever it was created, and it can only be on disk if the path
was assigned first. -/
theorem run_scan_workflow_cleanup (env : WorkflowEnv) :
    (run_scan_workflow env).2 = false := by
  rcases env with ⟨⟨isDir, entries⟩, zp, zw, ci, ini, pl, sa, wr⟩
  cases isDir <;> cases zw <;> cases ci <;> cases ini <;> cases pl <;>
    cases sa <;> cases wr <;> cases zp <;>
      cases h : (entries.filter iacFilter).isEmpty <;>
        simp [run_scan_workflow, runBody, find_iac_templates, h]


/-- Under the list shape constraint, the parsing-error part of one loop
iteration is exactly the spec's parsing-error record list. -/
theorem peFirst (rs : List (String × JValue)) (h : peOk rs = true) :
    (if optTruthy (jlookup rs "parsingErrors")
     then [FailureRecord.parsingError ((jlookup rs "parsingErrors").getD .null)]
     else []) = specPeRecords rs := by
  unfold peOk at h
  unfold specPeRecords
  cases hpe : jlookup rs "parsingErrors" with
  | none => simp [optTruthy]
  | some v =>
    rw [hpe] at h
    cases v with
    | arr cs =>
      cases cs with
      | nil => simp [optTruthy, JValue.truthy]
      | cons p ps => simp [optTruthy, JValue.truthy]
    | null => simp at h
    | bool b => simp at h
    | num n => simp at h
    | str s => simp at h
    | obj o => simp at h

/-- A well-formed entry is processed without error into exactly the
records the spec prescribes for it. -/
theorem processEntry_wellFormed (e : JValue) (h : wellFormedEntry e = true) :
    processEntry e = .ok (specEntryRecords e) := by
  cases e with
  | obj fs =>
    simp only [wellFormedEntry] at h
    simp only [processEntry, specEntryRecords]
    cases hres : (jlookup fs "results").getD (JValue.obj []) with
    | obj rs =>
      rw [hres] at h
      dsimp only at h
      rw [Bool.and_eq_true] at h
      obtain ⟨hpe, hfc⟩ := h
      dsimp only
      rw [peFirst rs hpe]
      unfold fcOk at hfc
      unfold specFcRecords
      cases hfc' : jlookup rs "failedChecks" with
      | none => simp [optTruthy, epure]
      | some v =>
        rw [hfc'] at hfc
        cases v with
        | arr cs =>
          cases cs with
          | nil => simp [optTruthy, JValue.truthy, epure]
          | cons c cs' => simp [optTruthy, JValue.truthy, pyIter, ebind_ok, epure]
        | null => simp at hfc
        | bool b => simp at hfc
        | num n => simp at hfc
        | str s => simp at hfc
        | obj o => simp at hfc
    | null => rw [hres] at h; simp at h
    | bool b => rw [hres] at h; simp at h
    | num n => rw [hres] at h; simp at h
    | str s => rw [hres] at h; simp at h
    | arr xs => rw [hres] at h; simp at h
  | null => rfl
  | bool b => rfl
  | num n => rfl
  | str s => rfl
  | arr xs => rfl

/-- The consumed generator over well-formed entries yields the spec's
records in entry order. -/
theorem extractEntries_wellFormed (entries : List JValue) :
    (∀ e ∈ entries, wellFormedEntry e = true) →
    extractEntries entries = .ok (specRecords entries) := by
  induction entries with
  | nil => intro _; rfl
  | cons e rest ih =>
    intro h
    have he := processEntry_wellFormed e (h e (by simp))
    have hr := ih fun x hx => h x (by simp [hx])
    simp [extractEntries, he, hr, ebind_ok, epure, specRecords]

/-- C5: for a payload whose `result` array holds well-formed entries,
`extract_failures` yields, per entry in order, one parsing-error record
carrying the full `parsingErrors` list when non-empty, then one
failed-check record per `failedChecks` element in original relative order;
non-dict entries are skipped without error. -/
theorem extract_failures_spec (fs : List (String × JValue)) (entries : List JValue)
    (hres : jlookup fs "result" = some (JValue.arr entries))
    (hwf : ∀ e ∈ entries, wellFormedEntry e = true) :
    extract_failures (JValue.obj fs) = .ok (specRecords entries) := by
  unfold extract_failures
  rw [pyGet, hres]
  simp only [ebind_ok, Option.getD, pyIter]
  exact extractEntries_wellFormed entries hwf

/-- C5 witness: the spec's example payload — one entry with a non-empty
`parsingErrors`, another with two `failedChecks` — yields exactly three
records: one ParsingError then two FailedChecks, in entry order. -/
theorem extract_failures_spec_witness :
    extract_failures (JValue.obj [("result", JValue.arr
        [JValue.obj [("results", JValue.obj
           [("parsingErrors", JValue.arr [JValue.str "bad.tf"])])],
         JValue.obj [("results", JValue.obj
           [("failedChecks", JValue.arr [JValue.str "c1", JValue.str "c2"])])]])]) =
      .ok [FailureRecord.parsingError (JValue.arr [JValue.str "bad.tf"]),
           FailureRecord.failedCheck (JValue.str "c1"),
           FailureRecord.failedCheck (JValue.str "c2")] :=
  (extract_failures_spec
    [("result", JValue.arr
        [JValue.obj [("results", JValue.obj
           [("parsingErrors", JValue.arr [JValue.str "bad.tf"])])],
         JValue.obj [("results", JValue.obj
           [("failedChecks", JValue.arr [JValue.str "c1", JValue.str "c2"])])]])]
    [JValue.obj [("results", JValue.obj
       [("parsingErrors", JValue.arr [JValue.str "bad.tf"])])],
     JValue.obj [("results", JValue.obj
       [("failedChecks", JValue.arr [JValue.str "c1", JValue.str "c2"])])]]
    rfl (by decide)).trans rfl

/-- A missing or falsy (in particular empty) field renders as the literal
string None. -/
theorem fieldValue_none (fs : List (String × JValue)) (key : String)
    (h : optTruthy (jlookup fs key) = false) : fieldValue fs key = "None" := by
  unfold fieldValue
  cases hl : jlookup fs key with
  | none => rfl
  | some v =>
    rw [hl] at h
    simp only [optTruthy] at h
    simp [h]

/-- C6: for every failed-check record over a dict, the reporter emits
exactly one line, the comma-joined `label=value` rendering over the fixed
ordered field set File Name, Qualys CID, Control Name, Criticality,
Remediation, substituting the literal string None for a missing or falsy
value and never omitting a field; when `remediation` is missing or empty
the line contains the substring `Remediation=None`. -/
theorem report_failed_check_line (fs : List (String × JValue)) :
    renderFailure (FailureRecord.failedCheck (JValue.obj fs)) =
      .ok ("::error::" ++ "File Name=" ++ fieldValue fs "filePath" ++ ", " ++
        "Qualys CID=" ++ fieldValue fs "checkId" ++ ", " ++
        "Control Name=" ++ fieldValue fs "checkName" ++ ", " ++
        "Criticality=" ++ fieldValue fs "criticality" ++ ", " ++
        "Remediation=" ++ fieldValue fs "remediation") ∧
    (optTruthy (jlookup fs "remediation") = false →
      ∃ line, renderFailure (FailureRecord.failedCheck (JValue.obj fs)) = .ok line ∧
        "Remediation=None".data <:+: line.data) := by
  have key : renderFailure (FailureRecord.failedCheck (JValue.obj fs)) =
      .ok ("::error::" ++ "File Name=" ++ fieldValue fs "filePath" ++ ", " ++
        "Qualys CID=" ++ fieldValue fs "checkId" ++ ", " ++
        "Control Name=" ++ fieldValue fs "checkName" ++ ", " ++
        "Criticality=" ++ fieldValue fs "criticality" ++ ", " ++
        "Remediation=" ++ fieldValue fs "remediation") := by
    simp only [renderFailure, FIELD_MAPPING, List.map, joinComma]
    refine congrArg Except.ok (String.ext ?_)
    simp [String.data_append, List.append_assoc]
  refine ⟨key, ?_⟩
  intro h
  rw [key, fieldValue_none fs "remediation" h]
  refine ⟨_, rfl, ?_⟩
  refine substring_of_suffix ⟨("::error::" ++ "File Name=" ++
    fieldValue fs "filePath" ++ ", " ++ "Qualys CID=" ++
    fieldValue fs "checkId" ++ ", " ++ "Control Name=" ++
    fieldValue fs "checkName" ++ ", " ++ "Criticality=" ++
    fieldValue fs "criticality" ++ ", ").data, ?_⟩
  rw [show ("Remediation=None".data : List Char) =
    "Remediation=".data ++ "None".data from by decide]
  simp [String.data_append, List.append_assoc]

/-- C6 witness: a check with only a file path renders a line ending in
`Remediation=None`. -/
theorem report_failed_check_line_witness :
    ∃ line, renderFailure (FailureRecord.failedCheck
        (JValue.obj [("filePath", JValue.str "f.tf")])) = .ok line ∧
      "Remediation=None".data <:+: line.data :=
  (report_failed_check_line [("filePath", JValue.str "f.tf")]).2 rfl

/-- A successful lookup needs a non-empty dict. -/
theorem jlookup_ne_nil {fs : List (String × JValue)} {k : String} {v : JValue}
    (h : jlookup fs k = some v) : fs ≠ [] := by
  intro h0
  subst h0
  simp [jlookup] at h

/-- A payload whose `status` lookup succeeds is a truthy dict. -/
theorem truthy_of_status {d v : JValue}
    (h : pyGet d "status" = .ok (some v)) : d.truthy = true := by
  cases d <;> simp [pyGet] at h
  case obj fs =>
    cases fs with
    | nil => simp [jlookup] at h
    | cons p fs' => rfl

/-- The status comparison holds exactly on the string FINISHED. -/
theorem statusIsFinished_iff (st : Option JValue) :
    statusIsFinished st = true ↔ st = some (JValue.str "FINISHED") := by
  cases st with
  | none => simp [statusIsFinished]
  | some v => cases v <;> simp [statusIsFinished]

/-- Exit-code computation once the status is FINISHED: the run fails on an
extraction or rendering error, and otherwise exits 0 exactly when no record
was extracted. -/
theorem processExit_finished {d : JValue}
    (hst : pyGet d "status" = .ok (some (JValue.str "FINISHED"))) :
    processExit (some d) =
      match extract_failures d with
      | .error _ => 1
      | .ok fails =>
        match reportLines fails with
        | .error _ => 1
        | .ok _ => if fails.isEmpty then 0 else 1 := by
  have htr : d.truthy = true := truthy_of_status hst
  have hfin : statusIsFinished (some (JValue.str "FINISHED")) = true := rfl
  cases hex : extract_failures d with
  | error e =>
    simp [processExit, resultParserMain, htr, hst, hfin, hex, ebind_ok, ebind_err]
  | ok fails =>
    cases hrl : reportLines fails with
    | error e =>
      simp [processExit, resultParserMain, htr, hst, hfin, hex, hrl,
        report_failures, ebind_ok, ebind_err]
    | ok lines =>
      have hrep : report_failures fails = .ok (lines, !fails.isEmpty) := by
        simp [report_failures, hrl, ebind_ok, epure]
      simp only [processExit, resultParserMain, htr, hst, hfin, hex, hrep,
        ebind_ok, epure, if_true]
      cases fails <;> simp [hrl]

/-- C1: the result-parsing entry point exits 0 iff the persisted payload's
top-level status is FINISHED and the failure extractor yields zero records;
it exits 1 whenever a failure record is consumed, the status is not
FINISHED, or the payload cannot be loaded; and in the FINISHED branch the
reporter's boolean is the sole determinant of the verdict. -/
theorem resultParser_exit_code (sd : Option JValue) :
    (processExit sd = 0 ∨ processExit sd = 1) ∧
    (processExit sd = 0 ↔
      ∃ d, sd = some d ∧
        pyGet d "status" = .ok (some (JValue.str "FINISHED")) ∧
        extract_failures d = .ok []) ∧
    (∀ d fails lines b, sd = some d →
      pyGet d "status" = .ok (some (JValue.str "FINISHED")) →
      extract_failures d = .ok fails →
      report_failures fails = .ok (lines, b) →
      processExit sd = if b then 1 else 0) := by
  cases sd with
  | none =>
    refine ⟨Or.inr rfl, ?_, ?_⟩
    · constructor
      · intro h0
        exact absurd h0 (by simp [processExit, resultParserMain])
      · rintro ⟨d, hd, -, -⟩
        exact absurd hd (by simp)
    · intro d fails lines b hd
      exact absurd hd (by simp)
  | some d =>
    by_cases htr : d.truthy = true
    · cases hst : pyGet d "status" with
      | error e =>
        have hexit : processExit (some d) = 1 := by
          simp [processExit, resultParserMain, htr, hst, ebind_err]
        refine ⟨Or.inr hexit, ?_, ?_⟩
        · constructor
          · intro h0
            rw [hexit] at h0
            exact absurd h0 one_ne_zero
          · rintro ⟨d', hd, hstat, -⟩
            injection hd with hdd
            subst hdd
            rw [hst] at hstat
            exact absurd hstat (by simp)
        · intro d' fails lines b hd hstat hex hrep
          injection hd with hdd
          subst hdd
          rw [hst] at hstat
          exact absurd hstat (by simp)
      | ok st =>
        by_cases hfin : statusIsFinished st = true
        · have hstv : st = some (JValue.str "FINISHED") :=
            (statusIsFinished_iff st).mp hfin
          subst hstv
          refine ⟨?_, ?_, ?_⟩
          · rw [processExit_finished hst]
            cases hex : extract_failures d with
            | error e => exact Or.inr rfl
            | ok fails =>
              dsimp only
              cases hrl : reportLines fails with
              | error e => exact Or.inr rfl
              | ok lines =>
                dsimp only
                cases hie : fails.isEmpty <;> simp
          · constructor
            · intro h0
              rw [processExit_finished hst] at h0
              cases hex : extract_failures d with
              | error e =>
                rw [hex] at h0
                exact absurd h0 (by simp)
              | ok fails =>
                rw [hex] at h0
                dsimp only at h0
                cases hrl : reportLines fails with
                | error e =>
                  rw [hrl] at h0
                  exact absurd h0 (by simp)
                | ok lines =>
                  rw [hrl] at h0
                  dsimp only at h0
                  by_cases hie : fails.isEmpty = true
                  · have hnil : fails = [] := List.isEmpty_iff.mp hie
                    subst hnil
                    exact ⟨d, rfl, hst, hex⟩
                  · rw [if_neg hie] at h0
                    exact absurd h0 one_ne_zero
            · rintro ⟨d', hd, hstat, hex⟩
              injection hd with hdd
              subst hdd
              rw [processExit_finished hstat, hex]
              rfl
          · intro d' fails lines b hd hstat hex hrep
            injection hd with hdd
            subst hdd
            have hpair : reportLines fails = .ok lines ∧ b = !fails.isEmpty := by
              unfold report_failures at hrep
              cases hrlc : reportLines fails with
              | error e =>
                rw [hrlc] at hrep
                simp [ebind_err] at hrep
              | ok ls =>
                rw [hrlc] at hrep
                simp only [ebind_ok, epure, Except.ok.injEq, Prod.mk.injEq] at hrep
                exact ⟨by rw [hrep.1], hrep.2.symm⟩
            obtain ⟨hrl1, hb⟩ := hpair
            rw [processExit_finished hstat]
            simp only [hex, hrl1, hb]
            cases hie : fails.isEmpty <;> simp [hie]
        · have hfin' : statusIsFinished st = false := by
            cases hb : statusIsFinished st
            · rfl
            · exact absurd hb hfin
          have hexit : processExit (some d) = 1 := by
            simp [processExit, resultParserMain, htr, hst, ebind_ok, hfin']
          refine ⟨Or.inr hexit, ?_, ?_⟩
          · constructor
            · intro h0
              rw [hexit] at h0
              exact absurd h0 one_ne_zero
            · rintro ⟨d', hd, hstat, -⟩
              injection hd with hdd
              subst hdd
              rw [hst] at hstat
              have : st = some (JValue.str "FINISHED") := by
                simpa using hstat
              exact absurd ((statusIsFinished_iff st).mpr this) (by simp [hfin'])
          · intro d' fails lines b hd hstat hex hrep
            injection hd with hdd
            subst hdd
            rw [hst] at hstat
            have : st = some (JValue.str "FINISHED") := by
              simpa using hstat
            exact absurd ((statusIsFinished_iff st).mpr this) (by simp [hfin'])
    · have htr' : d.truthy = false := by
        cases hb : d.truthy
        · rfl
        · exact absurd hb htr
      have hexit : processExit (some d) = 1 := by
        simp [processExit, resultParserMain, htr']
      refine ⟨Or.inr hexit, ?_, ?_⟩
      · constructor
        · intro h0
          rw [hexit] at h0
          exact absurd h0 one_ne_zero
        · rintro ⟨d', hd, hstat, -⟩
          injection hd with hdd
          subst hdd
          exact absurd (truthy_of_status hstat) htr
      · intro d' fails lines b hd hstat hex hrep
        injection hd with hdd
        subst hdd
        exact absurd (truthy_of_status hstat) htr

/-- C1 witness: a FINISHED payload with no result entries exits 0. -/
theorem resultParser_exit_code_witness :
    processExit (some (JValue.obj [("status", JValue.str "FINISHED")])) = 0 :=
  (resultParser_exit_code
    (some (JValue.obj [("status", JValue.str "FINISHED")]))).2.1.mpr
    ⟨JValue.obj [("status", JValue.str "FINISHED")], rfl, rfl, rfl⟩
